import Mathlib

/-!
Verification of the Bon2Workflow Typst conversion pipeline against its
natural-language specification.

The definitions below are shallow embeddings of the TypeScript sources:

* `TypstCache` (`typstCache.ts`): the LRU render cache.  A JavaScript `Map`
  is modelled as an insertion-ordered association list with unique keys;
  `Date.now()` is threaded in as an explicit `now` argument.
* `executeSandbox` (`typstSandbox.ts`): the sandboxed script runner.
* `TypstAPI.validateOptions` / `TypstAPI.convertString` (`api.ts`).
* `TypstScriptManager.loadScript` / `TypstConverter.selectScript`
  (`typstScriptManager.ts`, `typstConverter.ts`).
* `formatListItem` / `generateList` (`transformer/generators/list.ts`) and
  `generateCodeBlock` (`transformer/generators/code.ts`).
* The embed resolution engine (`markdownToTypst` and its embed expansion)
  is not present in the provided sources (only its callers, generators and
  tests are), so it is modelled from the spec, as marked below.

JavaScript numbers are modelled as `ℚ` where fractional values matter and
as `Int`/`Nat` where only sign or counting matters; JavaScript truthiness
checks on strings (`if (s)`) are translated as `s ≠ ""` and are flagged in
comments where they occur in the source.
-/

/-- A JavaScript runtime value, as far as the claims need to distinguish
values: a number, a string, `undefined`, or some (host) object identified
by a label. -/
inductive JSValue where
  | num (x : ℚ)
  | str (s : String)
  | undef
  | obj (id : String)
  deriving DecidableEq, Repr

/-! ## Render cache (`typstCache.ts`) -/

/-- `interface CacheEntry { svg: string; timestamp: number }`. -/
structure CacheEntry where
  svg : String
  timestamp : Nat
  deriving DecidableEq, Repr

/-- `Map.get`: the value stored under `k`, if any. -/
def jsMapGet (m : List (String × CacheEntry)) (k : String) : Option CacheEntry :=
  (m.find? (fun e => e.1 == k)).map (·.2)

/-- `Map.has`. -/
def jsMapHas (m : List (String × CacheEntry)) (k : String) : Bool :=
  m.any (fun e => e.1 == k)

/-- `Map.set`: overwrite in place when the key exists, append otherwise
(JavaScript `Map` preserves insertion order on overwrite). -/
def jsMapSet (m : List (String × CacheEntry)) (k : String) (v : CacheEntry) :
    List (String × CacheEntry) :=
  if jsMapHas m k then m.map (fun e => if e.1 == k then (k, v) else e)
  else m ++ [(k, v)]

/-- `Map.delete`: keys are unique in a `Map`, so deleting the entry for `k`
is filtering it out. -/
def jsMapDelete (m : List (String × CacheEntry)) (k : String) :
    List (String × CacheEntry) :=
  m.filter (fun e => e.1 != k)

/-- `class TypstCache`, state: `maxSize` (a JS number, here `Int` since only
its comparisons matter), the backing `Map`, and the LRU `accessOrder`. -/
structure TypstCache where
  maxSize : Int
  cache : List (String × CacheEntry)
  accessOrder : List String
  deriving DecidableEq, Repr

namespace TypstCache

/-- The constructor: `if (maxSize <= 0) throw new Error(...)`. -/
def create (maxSize : Int) : Except String TypstCache :=
  if maxSize ≤ 0 then Except.error "Cache size must be greater than 0"
  else Except.ok { maxSize := maxSize, cache := [], accessOrder := [] }

/-- `removeFromAccessOrder`: `indexOf` + `splice(index, 1)` removes the
first occurrence of the key. -/
def removeFromAccessOrder (ao : List String) (codeHash : String) : List String :=
  ao.erase codeHash

/-- `updateAccessOrder`: remove then push to the back (most recently used). -/
def updateAccessOrder (ao : List String) (codeHash : String) : List String :=
  removeFromAccessOrder ao codeHash ++ [codeHash]

/-- `evictOldest`: `shift()` the oldest key off `accessOrder`; the source then
guards the `Map.delete` with `if (oldest)`, and in JavaScript the empty
string is falsy, so an empty-string key is popped from `accessOrder` but
never deleted from the `Map`. -/
def evictOldest (c : TypstCache) : TypstCache :=
  match c.accessOrder with
  | [] => c
  | oldest :: rest =>
      { c with
        accessOrder := rest,
        cache := if oldest ≠ "" then jsMapDelete c.cache oldest else c.cache }

/-- `get(codeHash)`: a hit promotes the key to most recently used. -/
def get (c : TypstCache) (codeHash : String) : Option String × TypstCache :=
  match jsMapGet c.cache codeHash with
  | none => (none, c)
  | some entry =>
      (some entry.svg,
        { c with accessOrder := updateAccessOrder c.accessOrder codeHash })

/-- `set(codeHash, svg)`: drop an existing access record, evict when full,
then insert and push the key as most recently used. -/
def set (c : TypstCache) (codeHash svg : String) (now : Nat) : TypstCache :=
  let c1 :=
    if jsMapHas c.cache codeHash then
      { c with accessOrder := removeFromAccessOrder c.accessOrder codeHash }
    else c
  let c2 := if (c1.cache.length : Int) ≥ c1.maxSize then evictOldest c1 else c1
  { c2 with
    cache := jsMapSet c2.cache codeHash { svg := svg, timestamp := now },
    accessOrder := c2.accessOrder ++ [codeHash] }

/-- `clear()`. -/
def clear (c : TypstCache) : TypstCache :=
  { c with cache := [], accessOrder := [] }

/-- `size()`. -/
def size (c : TypstCache) : Nat :=
  c.cache.length

end TypstCache

/-! ### C9, C2 -/

/-- C9: constructing a `TypstCache` with capacity ≤ 0 throws
"Cache size must be greater than 0", so every successfully constructed
cache has a strictly positive capacity. -/
theorem typstCache_create_positive_capacity :
    (∀ n : Int, n ≤ 0 →
      TypstCache.create n = Except.error "Cache size must be greater than 0")
    ∧ (∀ (n : Int) (c : TypstCache),
        TypstCache.create n = Except.ok c → 0 < c.maxSize) := by
  constructor
  · intro n h
    simp [TypstCache.create, h]
  · intro n c h
    by_cases hn : n ≤ 0
    · simp [TypstCache.create, hn] at h
    · simp [TypstCache.create, hn] at h
      subst h
      exact lt_of_not_le hn

theorem typstCache_create_positive_capacity_witness :
    TypstCache.create 0 = Except.error "Cache size must be greater than 0" ∧
    (0 : Int) < (⟨5, [], []⟩ : TypstCache).maxSize :=
  ⟨typstCache_create_positive_capacity.1 0 (by decide),
   typstCache_create_positive_capacity.2 5 ⟨5, [], []⟩ rfl⟩

/-- C2: the claimed capacity invariant fails on the code.  On a cache of
capacity 1, `set("", v)` then `set("a", w)` leaves 2 stored entries: during
the second `set` the eviction pops the empty-string key off `accessOrder`
but the `if (oldest)` truthiness guard skips the `Map.delete`, so the entry
for `""` survives and the size exceeds the capacity. -/
theorem typstCache_empty_key_exceeds_capacity :
    TypstCache.create 1 = Except.ok ⟨1, [], []⟩ ∧
    (TypstCache.set (TypstCache.set ⟨1, [], []⟩ "" "v" 0) "a" "w" 1).size = 2 ∧
    ¬ ((TypstCache.set (TypstCache.set ⟨1, [], []⟩ "" "v" 0) "a" "w" 1).size ≤ 1) :=
  ⟨rfl, by decide, by decide⟩

/-! ## String containment helpers -/

/-- `needle` occurs (contiguously) inside `haystack`. -/
def strContains (haystack needle : String) : Prop :=
  needle.data <:+: haystack.data

instance (h n : String) : Decidable (strContains h n) :=
  List.decidableInfix n.data h.data

theorem strContains_refl (s : String) : strContains s s :=
  List.infix_refl s.data

theorem strContains_append_left {s n : String} (t : String)
    (h : strContains s n) : strContains (s ++ t) n := by
  unfold strContains at *
  rw [String.data_append]
  rcases h with ⟨u, v, huv⟩
  exact ⟨u, v ++ t.data, by rw [← huv]; simp⟩

theorem strContains_append_right {t n : String} (s : String)
    (h : strContains t n) : strContains (s ++ t) n := by
  unfold strContains at *
  rw [String.data_append]
  rcases h with ⟨u, v, huv⟩
  exact ⟨s.data ++ u, v, by rw [← huv]; simp⟩

/-! ## Sandboxed script runner (`typstSandbox.ts`, `executeSandbox`)

The runner builds `new Function("content", body)` where `body` is
`"use strict"; const app = undefined; const window = undefined;
const global = undefined; <scriptCode>; if (typeof transform !== "function")
throw ...; return transform(content);` and invokes it inside a `try`/`catch`
that re-throws every caught error as
`"Script execution failed: " + message`.

Evaluation of arbitrary JavaScript is not embeddable, so a user script is
modelled by its observable behaviour (`ScriptBehavior`): evaluating the
script source may itself throw, may fail to define a callable `transform`,
or may define a `transform` whose application to the input yields a string,
throws synchronously, or returns a promise that later resolves or rejects.
The `try`/`catch` in the source intercepts only synchronous exceptions; a
returned promise (even one that later rejects) flows through the `catch`
untouched, and the rejection surfaces only at the caller's `await`.
-/

/-- The observable outcome of calling the user's `transform(input)`. -/
inductive TransformOutcome where
  | value (s : String)
  | thrown (msg : String)
  | asyncValue (s : String)
  | asyncThrown (msg : String)
  deriving DecidableEq, Repr

/-- The observable behaviour of evaluating a user script's source text. -/
inductive ScriptBehavior where
  | evalError (msg : String)
  | noTransform
  | transform (f : String → TransformOutcome)

/-- A value produced by the sandboxed function body: a plain string or a
pending promise (with its eventual outcome). -/
inductive SandboxValue where
  | str (s : String)
  | promiseResolved (s : String)
  | promiseRejected (msg : String)
  deriving DecidableEq, Repr

/-- Result of a synchronous JavaScript call: a returned value or a thrown
error message. -/
inductive SandboxResult where
  | ret (v : SandboxValue)
  | thrown (msg : String)
  deriving DecidableEq, Repr

/-- The body built by `new Function`: run the script, check
`typeof transform !== "function"`, and call `transform(content)`.  A
synchronous throw anywhere in the body is a `.thrown`; an async `transform`
returns its (possibly later-rejecting) promise. -/
def sandboxInvoke (script : ScriptBehavior) (content : String) : SandboxResult :=
  match script with
  | ScriptBehavior.evalError m => SandboxResult.thrown m
  | ScriptBehavior.noTransform =>
      SandboxResult.thrown "Script must define a transform() function"
  | ScriptBehavior.transform f =>
      match f content with
      | TransformOutcome.value s => SandboxResult.ret (SandboxValue.str s)
      | TransformOutcome.thrown m => SandboxResult.thrown m
      | TransformOutcome.asyncValue s =>
          SandboxResult.ret (SandboxValue.promiseResolved s)
      | TransformOutcome.asyncThrown m =>
          SandboxResult.ret (SandboxValue.promiseRejected m)

/-- `executeSandbox`: the `try`/`catch` wrapper.  Only synchronous throws
are caught and re-tagged; a returned promise passes through unchanged. -/
def executeSandbox (script : ScriptBehavior) (content : String) : SandboxResult :=
  match sandboxInvoke script content with
  | SandboxResult.thrown m =>
      SandboxResult.thrown ("Script execution failed: " ++ m)
  | SandboxResult.ret v => SandboxResult.ret v

/-- What the caller observes after `await executeSandbox(...)` (all call
sites of `executeSandbox` in the converter await its result). -/
def awaitExecuteSandbox (script : ScriptBehavior) (content : String) :
    Except String String :=
  match executeSandbox script content with
  | SandboxResult.thrown m => Except.error m
  | SandboxResult.ret (SandboxValue.str s) => Except.ok s
  | SandboxResult.ret (SandboxValue.promiseResolved s) => Except.ok s
  | SandboxResult.ret (SandboxValue.promiseRejected m) => Except.error m

/-! ### The sandbox scope (claim C3)

Inside the generated function body the bindings introduced by the runner
are: the parameter `content`, and the consts `app`, `window`, `global`,
each set to `undefined`.  Every other identifier resolves through the
enclosing scope of `new Function`, which is the host's global scope. -/

/-- The host globals that the sandbox explicitly shadows with `undefined`. -/
def sandboxShadowedGlobals : List String := ["app", "window", "global"]

/-- Identifier resolution inside the sandboxed script: `content` is the
input text, the three shadowed globals are `undefined`, and anything else
falls through to the host's global scope. -/
def sandboxScopeLookup (hostGlobal : String → Option JSValue)
    (content : String) (id : String) : Option JSValue :=
  if id = "content" then some (JSValue.str content)
  else if id ∈ sandboxShadowedGlobals then some JSValue.undef
  else hostGlobal id

/-- A host global scope exposing `globalThis` (always present in a real
JavaScript host) as a live host object. -/
def hostScopeWithGlobalThis : String → Option JSValue :=
  fun id => if id = "globalThis" then some (JSValue.obj "hostGlobalThis") else none

/-! ### C3 -/

/-- C3 as stated is false: the sandbox shadows only `app`, `window` and
`global`, not every ambient host binding.  Reading the well-known host
global `globalThis` inside the script yields the real host object, not an
inert value (and through it `window`, `app`, etc. remain reachable). -/
theorem sandbox_globalThis_leaks :
    sandboxScopeLookup hostScopeWithGlobalThis "input" "globalThis"
      = some (JSValue.obj "hostGlobalThis") ∧
    some (JSValue.obj "hostGlobalThis") ≠ some JSValue.undef ∧
    some (JSValue.obj "hostGlobalThis") ≠ (none : Option JSValue) := by
  decide

/-- C3 (amended): the sandbox binds the input text as `content` and shadows
exactly the three host globals `app`, `window` and `global` to `undefined`;
any other identifier (and in particular any other host global, such as
`globalThis`) still resolves through the host scope, and no conversion
callback is bound by this sandbox. -/
theorem sandbox_scope_amended (hostGlobal : String → Option JSValue)
    (content : String) :
    sandboxScopeLookup hostGlobal content "app" = some JSValue.undef ∧
    sandboxScopeLookup hostGlobal content "window" = some JSValue.undef ∧
    sandboxScopeLookup hostGlobal content "global" = some JSValue.undef ∧
    sandboxScopeLookup hostGlobal content "content" = some (JSValue.str content) ∧
    (∀ id : String, id ≠ "content" → id ∉ sandboxShadowedGlobals →
      sandboxScopeLookup hostGlobal content id = hostGlobal id) := by
  refine ⟨rfl, rfl, rfl, rfl, ?_⟩
  intro id hc hs
  simp [sandboxScopeLookup, hc, hs]

theorem sandbox_scope_amended_witness :
    sandboxScopeLookup hostScopeWithGlobalThis "txt" "app" = some JSValue.undef ∧
    sandboxScopeLookup hostScopeWithGlobalThis "txt" "globalThis"
      = hostScopeWithGlobalThis "globalThis" :=
  ⟨(sandbox_scope_amended hostScopeWithGlobalThis "txt").1,
   (sandbox_scope_amended hostScopeWithGlobalThis "txt").2.2.2.2 "globalThis"
     (by decide) (by decide)⟩

/-! ### C4 -/

/-- C4 as stated is false for asynchronous failures: when `transform`
returns a promise that rejects, the rejection is not intercepted by the
runner's `try`/`catch` (which only sees synchronous throws), so the awaited
error carries the original message without the
"Script execution failed" tag. -/
theorem sandbox_async_rejection_untagged :
    awaitExecuteSandbox
        (ScriptBehavior.transform fun _ => TransformOutcome.asyncThrown "boom")
        "input"
      = Except.error "boom" ∧
    ¬ strContains "boom" "Script execution failed" := by
  constructor
  · rfl
  · decide

/-- C4 (amended): a script without a callable `transform` fails with a
tagged error whose message identifies the missing contract; every
synchronous exception raised during script evaluation or execution is
re-raised once as "Script execution failed: " plus the original message
(no retry); a synchronous or asynchronously resolved `transform` result is
returned to the caller after awaiting; but an asynchronous rejection
propagates with its original message untagged. -/
theorem sandbox_error_tagging (content : String) :
    (awaitExecuteSandbox ScriptBehavior.noTransform content
        = Except.error
            "Script execution failed: Script must define a transform() function" ∧
      strContains
        "Script execution failed: Script must define a transform() function"
        "transform") ∧
    (∀ m : String, awaitExecuteSandbox (ScriptBehavior.evalError m) content
        = Except.error ("Script execution failed: " ++ m)) ∧
    (∀ m : String,
      awaitExecuteSandbox
          (ScriptBehavior.transform fun _ => TransformOutcome.thrown m) content
        = Except.error ("Script execution failed: " ++ m)) ∧
    (∀ s : String,
      awaitExecuteSandbox
          (ScriptBehavior.transform fun _ => TransformOutcome.value s) content
        = Except.ok s) ∧
    (∀ s : String,
      awaitExecuteSandbox
          (ScriptBehavior.transform fun _ => TransformOutcome.asyncValue s) content
        = Except.ok s) ∧
    (∀ m : String,
      awaitExecuteSandbox
          (ScriptBehavior.transform fun _ => TransformOutcome.asyncThrown m) content
        = Except.error m) :=
  ⟨⟨rfl, by decide⟩, fun _ => rfl, fun _ => rfl, fun _ => rfl, fun _ => rfl,
    fun _ => rfl⟩

/-! ## Public conversion API (`api.ts`) -/

/-- `ConvertOptions` as validated by `TypstAPI.validateOptions`.  The
`maxEmbedDepth` field is kept as a raw `JSValue` because the validator
inspects `typeof`; `autoCompile`/`silent` only affect the file path and are
omitted. -/
structure ConvertOptions where
  transformMode : Option String
  scriptName : Option String
  maxEmbedDepth : Option JSValue
  deriving Repr

/-- The `transformMode` test of `validateOptions`: guarded by the JS
truthiness check `if (options.transformMode)` (so the empty string skips
validation), then `!["ast", "script"].includes(...)`. -/
def badTransformMode (opts : ConvertOptions) : Bool :=
  match opts.transformMode with
  | some m => m != "" && !(m == "ast" || m == "script")
  | none => false

/-- The `maxEmbedDepth` test of `validateOptions`:
`options.maxEmbedDepth !== undefined &&
(typeof options.maxEmbedDepth !== "number" || options.maxEmbedDepth < 0)`.
Note that a non-integer number such as 2.5 passes. -/
def badMaxEmbedDepth (opts : ConvertOptions) : Bool :=
  match opts.maxEmbedDepth with
  | none => false
  | some (JSValue.num x) => decide (x < 0)
  | some _ => true

/-- `validateOptions` throws on the first failing check (the `scriptName`
check only logs a warning and never throws).  The source interpolates the
offending mode into the `transformMode` message; the interpolation is
elided here since no claim depends on that message's text. -/
def validateOptions (options : Option ConvertOptions) : Except String Unit :=
  match options with
  | none => Except.ok ()
  | some opts =>
      if badTransformMode opts then
        Except.error "[Typst API] Invalid transformMode: expected ast or script."
      else if badMaxEmbedDepth opts then
        Except.error "[Typst API] Invalid maxEmbedDepth: must be a non-negative number."
      else Except.ok ()

/-- The options record handed to `converter.convertMarkdown` by
`convertString` (string mode: `currentFile` is `undefined`). -/
structure MarkdownConvertOptions where
  transformMode : Option String
  scriptName : Option String
  maxEmbedDepth : Option JSValue
  currentFile : Option String
  deriving Repr

/-- `TypstAPI.convertString`: empty input returns `""` immediately; then
`validateOptions`; then the converter is invoked.  The converter itself
(`converter.convertMarkdown`) is passed in as a function so that theorems
can quantify over it and show when it is, or is not, reached. -/
def convertString
    (convertMarkdown : String → MarkdownConvertOptions → Except String String)
    (markdown : String) (options : Option ConvertOptions) :
    Except String String :=
  if markdown.length = 0 then Except.ok ""
  else
    match validateOptions options with
    | Except.error e => Except.error e
    | Except.ok _ =>
        convertMarkdown markdown
          { transformMode := (options.map (·.transformMode)).join,
            scriptName := (options.map (·.scriptName)).join,
            maxEmbedDepth := (options.map (·.maxEmbedDepth)).join,
            currentFile := none }

/-! ### C5 -/

/-- C5 as stated is false: a non-integer `maxEmbedDepth` (for example 5/2)
is not rejected — `validateOptions` only tests `typeof !== "number"` and
`< 0`, never integrality — and the conversion strategy is invoked;
moreover, a call with the empty markdown string is never rejected, even
with a negative depth, because the empty-input short circuit precedes
validation. -/
theorem convertString_accepts_fractional_depth :
    convertString (fun _ _ => Except.ok "CONVERTED") "# title"
        (some { transformMode := none, scriptName := none,
                maxEmbedDepth := some (JSValue.num (5 / 2)) })
      = Except.ok "CONVERTED" ∧
    validateOptions
        (some { transformMode := none, scriptName := none,
                maxEmbedDepth := some (JSValue.num (5 / 2)) })
      = Except.ok () ∧
    convertString (fun _ _ => Except.ok "CONVERTED") ""
        (some { transformMode := none, scriptName := none,
                maxEmbedDepth := some (JSValue.num (-1)) })
      = Except.ok "" := by
  have hq : ¬ ((5 / 2 : ℚ) < 0) := by norm_num
  refine ⟨?_, ?_, rfl⟩ <;>
    simp [convertString, validateOptions, badTransformMode, badMaxEmbedDepth, hq,
      String.length]

/-- C5 (amended): for every call with nonempty markdown whose options pass
the `transformMode` check and whose `maxEmbedDepth` is present and either a
negative number or not a number at all, `convertString` rejects with the
`maxEmbedDepth` error before invoking the conversion strategy (the result
is the same error for every possible converter); non-integer non-negative
numbers are not rejected, and the empty markdown string short-circuits
before any validation. -/
theorem convertString_rejects_bad_depth
    (convertMarkdown : String → MarkdownConvertOptions → Except String String)
    (markdown : String) (opts : ConvertOptions)
    (hmd : markdown ≠ "")
    (htm : badTransformMode opts = false)
    (hbad : (∃ x : ℚ, opts.maxEmbedDepth = some (JSValue.num x) ∧ x < 0) ∨
      (∃ v : JSValue, opts.maxEmbedDepth = some v ∧ ∀ x : ℚ, v ≠ JSValue.num x)) :
    convertString convertMarkdown markdown (some opts)
      = Except.error "[Typst API] Invalid maxEmbedDepth: must be a non-negative number." := by
  have hlen : markdown.length ≠ 0 := by
    intro h
    exact hmd (String.ext (List.length_eq_zero.mp h))
  have hdepth : badMaxEmbedDepth opts = true := by
    rcases hbad with ⟨x, hx, hneg⟩ | ⟨v, hv, hnn⟩
    · simp [badMaxEmbedDepth, hx, hneg]
    · rw [badMaxEmbedDepth, hv]
      cases v with
      | num x => exact absurd rfl (hnn x)
      | str s => rfl
      | undef => rfl
      | obj id => rfl
  simp [convertString, hlen, validateOptions, htm, hdepth]

theorem convertString_rejects_bad_depth_witness :
    convertString (fun _ _ => Except.ok "CONVERTED") "# title"
        (some { transformMode := none, scriptName := none,
                maxEmbedDepth := some (JSValue.num (-1)) })
      = Except.error "[Typst API] Invalid maxEmbedDepth: must be a non-negative number." :=
  convertString_rejects_bad_depth _ _ _ (by decide) (by decide)
    (Or.inl ⟨-1, rfl, by norm_num⟩)

/-! ### C10 -/

/-- C10: calling the public conversion API with an empty markdown string
returns the empty string immediately, for every converter (so neither the
structural nor the script strategy is invoked) and for every options
record, valid or not. -/
theorem convertString_empty_input
    (convertMarkdown : String → MarkdownConvertOptions → Except String String)
    (options : Option ConvertOptions) :
    convertString convertMarkdown "" options = Except.ok "" :=
  rfl

/-! ## Script storage (`typstScriptManager.ts`) and script selection
(`typstConverter.ts`) -/

/-- `String.prototype.trim()`: strip leading and trailing whitespace.
Modelled over the character list so that it evaluates by `decide`. -/
def jsTrim (s : String) : String :=
  ⟨((s.data.dropWhile Char.isWhitespace).reverse.dropWhile Char.isWhitespace).reverse⟩

/-- `String.prototype.endsWith`. -/
def jsEndsWith (s suffix : String) : Bool :=
  List.isSuffixOf suffix.data s.data

/-- `s.replace(/\.js$/, "")`: strip one trailing ".js". -/
def stripJsSuffix (s : String) : String :=
  if jsEndsWith s ".js" then ⟨s.data.take (s.data.length - 3)⟩ else s

/-- Association-list lookup for a string-keyed JS `Map` / storage adapter. -/
def storeGet (m : List (String × String)) (k : String) : Option String :=
  (m.find? (fun e => e.1 == k)).map (·.2)

/-- Membership test (`Map.has` / `adapter.exists`). -/
def storeHas (m : List (String × String)) (k : String) : Bool :=
  m.any (fun e => e.1 == k)

/-- Overwrite-or-append (`Map.set` / `adapter.write`). -/
def storeSet (m : List (String × String)) (k v : String) :
    List (String × String) :=
  if storeHas m k then m.map (fun e => if e.1 == k then (k, v) else e)
  else m ++ [(k, v)]

def DEFAULT_SCRIPT_NAME : String := "default"

/-- The built-in default script's source text.  The real constant is a
~100-line JavaScript program defining `transform(content)`; only its
identity matters to the claims, so the body is elided here. -/
def DEFAULT_SCRIPT_CONTENT : String :=
  "/* built-in default Markdown to Typst script, defines transform(content); full body elided */"

namespace TypstScriptManager

/-- The manager's `normalizeScriptName`:
`scriptName.trim().replace(/\.js$/, "")`. -/
def normalizeScriptName (s : String) : String :=
  stripJsSuffix (jsTrim s)

end TypstScriptManager

/-- State of a `TypstScriptManager` together with the vault files it reads:
the in-memory `scriptCache`, the adapter's files (path to content), and the
configured script directory.  `normalizePath` is modelled as the identity. -/
structure ScriptStore where
  scriptDirectory : String
  scriptCache : List (String × String)
  files : List (String × String)
  deriving Repr

namespace ScriptStore

/-- `getScriptPath`. -/
def getScriptPath (store : ScriptStore) (scriptName : String) : String :=
  store.scriptDirectory ++ "/" ++ scriptName ++ ".js"

/-- The name resolution at the top of `loadScript`:
`this.normalizeScriptName(scriptName) || DEFAULT_SCRIPT_NAME` (the empty
string is falsy in JavaScript). -/
def resolveScriptName (scriptName : String) : String :=
  let n := TypstScriptManager.normalizeScriptName scriptName
  if n = "" then DEFAULT_SCRIPT_NAME else n

/-- `initializeDefaultScript`: write the default script file (and cache it)
if it does not exist yet. -/
def initializeDefaultScript (store : ScriptStore) : ScriptStore :=
  let defaultPath := store.getScriptPath DEFAULT_SCRIPT_NAME
  if storeHas store.files defaultPath then store
  else
    { store with
      files := storeSet store.files defaultPath DEFAULT_SCRIPT_CONTENT,
      scriptCache := storeSet store.scriptCache DEFAULT_SCRIPT_NAME DEFAULT_SCRIPT_CONTENT }

theorem resolveScriptName_default :
    resolveScriptName DEFAULT_SCRIPT_NAME = DEFAULT_SCRIPT_NAME := by
  decide

/-- `loadScript`: cache hit first; a missing file falls back to the default
script (writing it out when even the default file is absent); otherwise the
file is read and cached.  The recursion is the source's own
`return this.loadScript(DEFAULT_SCRIPT_NAME)` and has depth at most one. -/
def loadScript (store : ScriptStore) (scriptName : String) :
    String × ScriptStore :=
  if storeHas store.scriptCache (resolveScriptName scriptName) then
    ((storeGet store.scriptCache (resolveScriptName scriptName)).getD "", store)
  else if storeHas store.files
      (store.getScriptPath (resolveScriptName scriptName)) = false then
    if hdef : resolveScriptName scriptName = DEFAULT_SCRIPT_NAME then
      (DEFAULT_SCRIPT_CONTENT, initializeDefaultScript store)
    else
      loadScript store DEFAULT_SCRIPT_NAME
  else
    ((storeGet store.files
        (store.getScriptPath (resolveScriptName scriptName))).getD "",
      { store with
        scriptCache :=
          storeSet store.scriptCache (resolveScriptName scriptName)
            ((storeGet store.files
                (store.getScriptPath (resolveScriptName scriptName))).getD "") })
termination_by (if resolveScriptName scriptName = DEFAULT_SCRIPT_NAME then 0 else 1)
decreasing_by
  rw [resolveScriptName_default, if_pos rfl, if_neg hdef]
  exact Nat.zero_lt_one

end ScriptStore

/-! ## Script selection (`TypstConverter.selectScript`) -/

namespace TypstConverter

/-- The converter's `normalizeScriptName`:
`name.replace(/\.js$/, "").trim() || "default"` (strip the suffix first,
then trim; the empty string is falsy). -/
def normalizeScriptName (name : String) : String :=
  if jsTrim (stripJsSuffix name) = "" then "default"
  else jsTrim (stripJsSuffix name)

end TypstConverter

/-- `file.parent?.path ?? ""` and the file's metadata, as far as
`selectScript` reads them. -/
structure TFileModel where
  path : String
  parentPath : Option String
  deriving Repr

/-- `CachedMetadata`: only the frontmatter map is read. -/
structure CachedMetadataModel where
  frontmatter : Option (List (String × JSValue))
  deriving Repr

/-- The converter settings read by `selectScript`:
`templateMapping` and `defaultScriptName` (possibly absent). -/
structure ConverterSettings where
  templateMapping : List (String × String)
  defaultScriptName : Option String
  deriving Repr

/-- Lookup in the frontmatter object. -/
def frontmatterGet (fm : List (String × JSValue)) (k : String) : Option JSValue :=
  (fm.find? (fun e => e.1 == k)).map (·.2)

/-- `selectScript`: frontmatter `typst-script` (a string with nonempty
trim) first, then the folder mapping (guarded by the JS truthiness of both
the folder path and the mapped name), then
`settings.defaultScriptName || "default"`.  The source's early returns are
written as nested fallbacks. -/
def selectScript (settings : ConverterSettings) (file : TFileModel)
    (metadata : Option CachedMetadataModel) : String :=
  let frontmatter := (metadata.bind (fun m => m.frontmatter)).getD []
  let fmChoice : Option String :=
    match frontmatterGet frontmatter "typst-script" with
    | some (JSValue.str s) =>
        if jsTrim s ≠ "" then some (TypstConverter.normalizeScriptName s) else none
    | _ => none
  match fmChoice with
  | some r => r
  | none =>
      let folderPath := (file.parentPath).getD ""
      let mappingChoice : Option String :=
        if folderPath ≠ "" then
          match storeGet settings.templateMapping folderPath with
          | some m => if m ≠ "" then some (TypstConverter.normalizeScriptName m) else none
          | none => none
        else none
      match mappingChoice with
      | some r => r
      | none =>
          match settings.defaultScriptName with
          | some d => if d ≠ "" then d else "default"
          | none => "default"

/-! ### C6 -/

/-- C6: a requested script name that does not resolve to a stored script
(neither cached nor on disk) makes `loadScript` return exactly what loading
the default script returns — and when the default script is not customized
either, that is the built-in default script's text — so a script-mode
conversion always proceeds with some script.  Script selection prefers the
frontmatter `typst-script`, then the folder mapping, then the default
script identifier. -/
theorem loadScript_falls_back_to_default :
    (∀ (store : ScriptStore) (name : String),
      storeHas store.scriptCache (ScriptStore.resolveScriptName name) = false →
      storeHas store.files
          (store.getScriptPath (ScriptStore.resolveScriptName name)) = false →
      ScriptStore.loadScript store name
        = ScriptStore.loadScript store DEFAULT_SCRIPT_NAME) ∧
    (∀ (store : ScriptStore) (name : String),
      storeHas store.scriptCache (ScriptStore.resolveScriptName name) = false →
      storeHas store.files
          (store.getScriptPath (ScriptStore.resolveScriptName name)) = false →
      storeHas store.scriptCache DEFAULT_SCRIPT_NAME = false →
      storeHas store.files
          (store.getScriptPath DEFAULT_SCRIPT_NAME) = false →
      (ScriptStore.loadScript store name).1 = DEFAULT_SCRIPT_CONTENT) ∧
    (∀ (settings : ConverterSettings) (file : TFileModel)
        (md : CachedMetadataModel) (fm : List (String × JSValue)) (s : String),
      md.frontmatter = some fm →
      frontmatterGet fm "typst-script" = some (JSValue.str s) →
      jsTrim s ≠ "" →
      selectScript settings file (some md) = TypstConverter.normalizeScriptName s) ∧
    (∀ (settings : ConverterSettings) (file : TFileModel)
        (folder m : String),
      file.parentPath = some folder → folder ≠ "" →
      storeGet settings.templateMapping folder = some m → m ≠ "" →
      selectScript settings file none = TypstConverter.normalizeScriptName m) ∧
    (∀ (settings : ConverterSettings) (file : TFileModel),
      file.parentPath = none →
      selectScript settings file none
        = (match settings.defaultScriptName with
           | some d => if d ≠ "" then d else "default"
           | none => "default")) := by
  refine ⟨?_, ?_, ?_, ?_, ?_⟩
  · intro store name h1 h2
    by_cases hdef : ScriptStore.resolveScriptName name = DEFAULT_SCRIPT_NAME
    · rw [ScriptStore.loadScript, ScriptStore.loadScript]
      rw [hdef] at h1 h2
      rw [ScriptStore.resolveScriptName_default]
      simp [h1, h2, hdef]
    · rw [ScriptStore.loadScript]
      simp [h1, h2, hdef]
  · intro store name h1 h2 hd1 hd2
    by_cases hdef : ScriptStore.resolveScriptName name = DEFAULT_SCRIPT_NAME
    · rw [ScriptStore.loadScript]
      rw [hdef] at h1 h2
      simp [ScriptStore.resolveScriptName_default, h1, h2, hdef]
    · rw [ScriptStore.loadScript]
      simp only [h1, h2, hdef]
      rw [ScriptStore.loadScript]
      simp [ScriptStore.resolveScriptName_default, hd1, hd2]
  · intro settings file md fm s hmd hfm hs
    simp [selectScript, hmd, hfm, hs]
  · intro settings file folder m hp hf hm hmne
    simp [selectScript, frontmatterGet, hp, hf, hm, hmne]
  · intro settings file hp
    simp [selectScript, frontmatterGet, hp]

theorem loadScript_falls_back_to_default_witness :
    (ScriptStore.loadScript ⟨"typst-scripts", [], []⟩ "missing").1
      = DEFAULT_SCRIPT_CONTENT ∧
    selectScript ⟨[], none⟩ ⟨"a.md", none⟩ none = "default" :=
  ⟨loadScript_falls_back_to_default.2.1 ⟨"typst-scripts", [], []⟩ "missing"
      rfl rfl rfl rfl,
   loadScript_falls_back_to_default.2.2.2.2 ⟨[], none⟩ ⟨"a.md", none⟩ rfl⟩

/-! ## List generator (`transformer/generators/list.ts`)

The mdast `List` / `ListItem` node kinds, shallowly: an item carries the
optional boolean `checked` attribute and some children of an abstract type
`α`; the caller-supplied `renderChildren` capability maps children to
already-joined text, exactly as the source's `RenderChildren` does. -/

structure MdListItem (α : Type) where
  checked : Option Bool
  children : α

structure MdList (α : Type) where
  ordered : Option Bool
  children : List (MdListItem α)

/-- `formatListItem`: `const prefix = ordered ? "+" : "-"`, trim the
rendered children, and emit
`` `${indent}${prefix} ${checkbox} ${content}\n` `` when `checked` is a
boolean, `` `${indent}${prefix} ${content}\n` `` otherwise. -/
def formatListItem {α : Type} (item : MdListItem α)
    (renderChildren : α → String) (ordered : Bool) (indent : String) : String :=
  let mark := if ordered then "+" else "-"
  let content := jsTrim (renderChildren item.children)
  match item.checked with
  | some b =>
      indent ++ mark ++ " " ++ (if b then "[x]" else "[ ]") ++ " " ++ content ++ "\n"
  | none => indent ++ mark ++ " " ++ content ++ "\n"

/-- `generateList`: map `formatListItem` over the items (with
`node.ordered ?? false` and the same `indent` handed to every item),
`join("")` the results, and append the trailing blank line.  `join("")` is
modelled as a right fold with append, which produces the same string. -/
def generateList {α : Type} (node : MdList α) (renderChildren : α → String)
    (indent : String) : String :=
  ((node.children.map (fun item =>
      formatListItem item renderChildren (node.ordered.getD false) indent)).foldr
    (· ++ ·) "") ++ "\n"

theorem drop_append_length {α : Type} (l₁ l₂ : List α) (n : Nat) :
    (l₁ ++ l₂).drop (l₁.length + n) = l₂.drop n :=
  List.drop_append n

/-- The character-level shape of a rendered list item. -/
theorem formatListItem_data {α : Type} (item : MdListItem α)
    (rc : α → String) (ordered : Bool) (indent : String) :
    (formatListItem item rc ordered indent).data
      = indent.data ++ (if ordered then '+' else '-') :: ' ' ::
          ((match item.checked with
            | some b => if b then ['[', 'x', ']', ' '] else ['[', ' ', ']', ' ']
            | none => []) ++ (jsTrim (rc item.children)).data ++ ['\n']) := by
  rcases item with ⟨checked, children⟩
  cases checked with
  | some b =>
      cases b <;> cases ordered <;>
        simp [formatListItem, String.data_append]
  | none =>
      cases ordered <;> simp [formatListItem, String.data_append]

/-! ### C7 -/

/-- C7: ordered items carry the leading marker `+`, unordered items the
distinct marker `-`; an item whose `checked` attribute is a boolean renders
the checkbox token `[x]`/`[ ]` right after the marker-plus-space, an item
without a boolean `checked` renders its content there with no checkbox
token inserted; every item starts with the literal indentation prefix, and
`generateList` hands the same indentation prefix down to every item it
renders. -/
theorem generateList_markers_checkboxes_indent {α : Type}
    (rc : α → String) (item : MdListItem α) (indent : String) :
    ((formatListItem item rc true indent).data.drop indent.data.length).take 2
        = ['+', ' '] ∧
    ((formatListItem item rc false indent).data.drop indent.data.length).take 2
        = ['-', ' '] ∧
    ('+' : Char) ≠ '-' ∧
    (∀ (b ordered : Bool), item.checked = some b →
      ((formatListItem item rc ordered indent).data.drop
          (indent.data.length + 2)).take 4
        = if b then ['[', 'x', ']', ' '] else ['[', ' ', ']', ' ']) ∧
    (∀ ordered : Bool, item.checked = none →
      (formatListItem item rc ordered indent).data.drop (indent.data.length + 2)
        = (jsTrim (rc item.children)).data ++ ['\n']) ∧
    (∀ ordered : Bool, indent.data <+: (formatListItem item rc ordered indent).data) ∧
    (∀ (node : MdList α), item ∈ node.children →
      strContains (generateList node rc indent)
        (formatListItem item rc (node.ordered.getD false) indent)) := by
  have hdrop2 : ∀ (c₁ c₂ : Char) (l : List Char) (k : Nat),
      (indent.data ++ c₁ :: c₂ :: l).drop (indent.data.length + k)
        = (c₁ :: c₂ :: l).drop k := fun c₁ c₂ l k => drop_append_length _ _ k
  refine ⟨?_, ?_, by decide, ?_, ?_, ?_, ?_⟩
  · rw [formatListItem_data, List.drop_left]
    rfl
  · rw [formatListItem_data, List.drop_left]
    rfl
  · intro b ordered hb
    rw [formatListItem_data, hb, hdrop2]
    cases b <;> rfl
  · intro ordered hnone
    rw [formatListItem_data, hnone, hdrop2]
    rfl
  · intro ordered
    rw [formatListItem_data]
    exact ⟨_, rfl⟩
  · intro node hmem
    rcases node with ⟨ord, children⟩
    simp only [generateList] at *
    induction children with
    | nil => cases hmem
    | cons hd tl ih =>
        rcases List.mem_cons.mp hmem with hhd | htl
        · subst hhd
          simp only [List.map_cons, List.foldr_cons]
          exact strContains_append_left _
            (strContains_append_left _ (strContains_refl _))
        · simp only [List.map_cons, List.foldr_cons]
          rw [String.append_assoc]
          exact strContains_append_right _ (ih htl)

theorem generateList_markers_checkboxes_indent_witness :
    ((formatListItem (⟨some true, "item text"⟩ : MdListItem String)
        (fun s => s) true "  ").data.drop 2).take 2 = ['+', ' '] ∧
    ((formatListItem (⟨some true, "item text"⟩ : MdListItem String)
        (fun s => s) true "  ").data.drop 4).take 4 = ['[', 'x', ']', ' '] ∧
    strContains
      (generateList (⟨some true, [⟨some true, "item text"⟩]⟩ : MdList String)
        (fun s => s) "  ")
      (formatListItem (⟨some true, "item text"⟩ : MdListItem String)
        (fun s => s) true "  ") := by
  refine ⟨?_, ?_, ?_⟩
  · exact (generateList_markers_checkboxes_indent (fun s => s)
      ⟨some true, "item text"⟩ "  ").1
  · exact (generateList_markers_checkboxes_indent (fun s => s)
      ⟨some true, "item text"⟩ "  ").2.2.2.1 true true rfl
  · exact (generateList_markers_checkboxes_indent (fun s => s)
      ⟨some true, "item text"⟩ "  ").2.2.2.2.2.2
      ⟨some true, [⟨some true, "item text"⟩]⟩ (List.mem_singleton.mpr rfl)

/-! ## Code block generator (`transformer/generators/code.ts`) -/

/-- The mdast `Code` node: an optional language tag and the literal code. -/
structure Code where
  lang : Option String
  value : String

/-- `generateCodeBlock`: `const lang = node.lang ?? ""; const fence = "```";`
then `` `${fence}${lang}\n${node.value}\n${fence}\n\n` ``.  The fence is the
fixed three-backtick string; the parsed node carries no record of the input
fence's length. -/
def generateCodeBlock (node : Code) : String :=
  let lang := node.lang.getD ""
  let fence := "```"
  fence ++ lang ++ "\n" ++ node.value ++ "\n" ++ fence ++ "\n\n"

/-! ### C8 -/

/-- C8 as stated is false: the generator cannot and does not reuse the
input code block's fence length.  For the node parsed from a code block
written with a four-backtick fence (mdast's `Code` records only `lang` and
`value`, so such an input yields exactly this node), the emitted leading
fence run has length 3, not 4. -/
theorem generateCodeBlock_fence_not_reused :
    ((generateCodeBlock ⟨some "py", "print(1)"⟩).data.takeWhile
        (fun c => c = '`')).length = 3 ∧
    ((generateCodeBlock ⟨some "py", "print(1)"⟩).data.takeWhile
        (fun c => c = '`')).length ≠ 4 := by
  constructor <;> decide

/-- C8 (amended): the generator always emits the fixed three-backtick fence
(regardless of the input's fence), the language string verbatim directly
after the opening fence (the empty string when the node has no language),
and the code content verbatim — unescaped — inside the fence. -/
theorem generateCodeBlock_amended (node : Code) :
    (generateCodeBlock node).data.take 3 = ['`', '`', '`'] ∧
    (node.lang.getD "").data <+: (generateCodeBlock node).data.drop 3 ∧
    strContains (generateCodeBlock node) node.value ∧
    generateCodeBlock node
      = "```" ++ node.lang.getD "" ++ "\n" ++ node.value ++ "\n" ++ "```" ++ "\n\n" := by
  have hdata : (generateCodeBlock node).data
      = "```".data ++ ((node.lang.getD "").data
          ++ ("\n".data ++ (node.value.data ++ ("\n".data ++ ("```".data ++ "\n\n".data))))) := by
    simp [generateCodeBlock, String.data_append]
  refine ⟨?_, ?_, ?_, rfl⟩
  · rw [hdata]
    have : ("```".data : List Char).length = 3 := by decide
    rw [← this, List.take_left]
  · rw [hdata]
    have : ("```".data : List Char).length = 3 := by decide
    rw [show (3 : Nat) = ("```".data : List Char).length + 0 from by rw [this],
      drop_append_length]
    exact ⟨_, rfl⟩
  · rw [strContains, hdata]
    exact ⟨"```".data ++ (node.lang.getD "").data ++ "\n".data,
      "\n".data ++ ("```".data ++ "\n\n".data), by simp⟩

/-! ## Embed resolution engine

Modelled from the spec: the transformer module implementing
`markdownToTypst` and its embed expansion is not among the provided
sources — only its callers, its generators and its tests are — so the
engine is modelled from §4.3 of the specification (with the output
fragments aligned with the repository's embed tests: a `#quote[...]` block
prefixed by a `#smallcaps("path")` source annotation for markup embeds,
and visible placeholders for a missing target and for depth exhaustion).
A document is a sequence of literal text fragments and file embeds; the
environment maps an embed target directly to the parsed document of a
markup file (resolution plus read plus parse, which are outside this
claim), or `none` when the target does not resolve. -/

inductive MdItem where
  | text (s : String)
  | embed (target : String)
  deriving DecidableEq, Repr

/-- Modelled from the spec: a parsed markup document, as far as embed
expansion observes it. -/
abbrev MdDoc := List MdItem

/-- Modelled from the spec: the visible "broken embed" placeholder for a
target that does not resolve (§4.3 step 2). -/
def brokenEmbed (target : String) : String :=
  "[Embed not found: " ++ target ++ "]"

/-- Modelled from the spec: the marker common to every depth-limited
placeholder (§4.3 step 4, "annotated as depth-limited, distinct from
not found"). -/
def depthLimitedTag : String := "[Embed depth limit reached: "

/-- Modelled from the spec: the depth-limited placeholder. -/
def depthLimited (target : String) : String :=
  depthLimitedTag ++ target ++ "]"

/-- The small-caps source-path annotation prepended to an expanded embed
(shape taken from the repository's embed tests). -/
def smallcapsTag (path : String) : String :=
  "#smallcaps(\"" ++ path ++ "\")"

/-- Modelled from the spec: depth-first conversion of a document with
`remainingDepth` as the embed budget.  Text passes through; an unresolved
embed leaves a broken-embed placeholder; a resolved embed at exhausted
depth leaves the depth-limited placeholder; otherwise the target document
is recursively converted with one less depth unit, wrapped in a quote
block, and prefixed with the source annotation.  The recursion is
structural on the depth, which is the spec's termination argument: depth
bounding alone guarantees termination, even on cyclic embed graphs. -/
def convertDoc (env : String → Option MdDoc) : Nat → MdDoc → String
  | 0, doc =>
      (doc.map (fun item =>
        match item with
        | MdItem.text s => s
        | MdItem.embed t =>
            match env t with
            | none => brokenEmbed t
            | some _ => depthLimited t)).foldr (· ++ ·) ""
  | d + 1, doc =>
      (doc.map (fun item =>
        match item with
        | MdItem.text s => s
        | MdItem.embed t =>
            match env t with
            | none => brokenEmbed t
            | some sub =>
                smallcapsTag t ++
                  ("#quote[" ++ (convertDoc env d sub ++ "]")))).foldr (· ++ ·) ""

theorem convertDoc_nil (env : String → Option MdDoc) (d : Nat) :
    convertDoc env d [] = "" := by
  cases d <;> rfl

theorem convertDoc_cons_text (env : String → Option MdDoc) (d : Nat)
    (s : String) (rest : MdDoc) :
    convertDoc env d (MdItem.text s :: rest) = s ++ convertDoc env d rest := by
  cases d <;> rfl

theorem convertDoc_cons_embed_zero (env : String → Option MdDoc)
    (t : String) (sub : MdDoc) (rest : MdDoc) (h : env t = some sub) :
    convertDoc env 0 (MdItem.embed t :: rest)
      = depthLimited t ++ convertDoc env 0 rest := by
  simp [convertDoc, h]

theorem convertDoc_cons_embed_succ (env : String → Option MdDoc) (d : Nat)
    (t : String) (sub : MdDoc) (rest : MdDoc) (h : env t = some sub) :
    convertDoc env (d + 1) (MdItem.embed t :: rest)
      = (smallcapsTag t ++ ("#quote[" ++ (convertDoc env d sub ++ "]")))
          ++ convertDoc env (d + 1) rest := by
  simp [convertDoc, h]

/-! ### A linear chain of embedded files, and a two-cycle -/

/-- The path of the i-th file in the chain (distinct nonempty paths). -/
def chainPath (i : Nat) : String :=
  String.mk (List.replicate (i + 1) 'f')

/-- The i-th document of a chain of length `L` with contents `c`: its own
content followed by an embed of the next file, except for the last file
which has no embed. -/
def chainDoc (c : Nat → String) (L i : Nat) : MdDoc :=
  if i < L then [MdItem.text (c i), MdItem.embed (chainPath (i + 1))]
  else [MdItem.text (c i)]

/-- The environment storing the chain's files `chainPath 0 .. chainPath L`. -/
def chainEnv (c : Nat → String) (L : Nat) : String → Option MdDoc :=
  fun p =>
    if 1 ≤ p.length ∧ p.length ≤ L + 1 ∧ p = chainPath (p.length - 1) then
      some (chainDoc c L (p.length - 1))
    else none

theorem chainPath_length (i : Nat) : (chainPath i).length = i + 1 := by
  simp [chainPath, String.length]

theorem chainEnv_chainPath (c : Nat → String) (L i : Nat) (hi : i ≤ L) :
    chainEnv c L (chainPath i) = some (chainDoc c L i) := by
  have hlen : (chainPath i).length = i + 1 := chainPath_length i
  unfold chainEnv
  rw [if_pos]
  · rw [hlen]
    simp
  · refine ⟨by omega, by omega, ?_⟩
    rw [hlen]
    simp

theorem chainDoc_last (c : Nat → String) (L : Nat) :
    chainDoc c L L = [MdItem.text (c L)] := by
  simp [chainDoc]

theorem chainDoc_step (c : Nat → String) (L i : Nat) (h : i < L) :
    chainDoc c L i = [MdItem.text (c i), MdItem.embed (chainPath (i + 1))] := by
  simp [chainDoc, h]

/-- Behaviour of the engine along a chain, by induction on the remaining
depth: with enough depth every remaining content appears in the output;
with insufficient depth the depth-limited marker appears. -/
theorem convertDoc_chain (c : Nat → String) (L : Nat) :
    ∀ d i, i ≤ L →
      ((L - i ≤ d →
        ∀ j, i ≤ j → j ≤ L →
          strContains (convertDoc (chainEnv c L) d (chainDoc c L i)) (c j)) ∧
       (d < L - i →
        strContains (convertDoc (chainEnv c L) d (chainDoc c L i))
          depthLimitedTag)) := by
  intro d
  induction d with
  | zero =>
      intro i hi
      constructor
      · intro hle j hij hjL
        have hiL : i = L := by omega
        have hj : j = L := by omega
        subst hiL
        subst hj
        rw [chainDoc_last, convertDoc_cons_text, convertDoc_nil]
        exact strContains_append_left _ (strContains_refl _)
      · intro hlt
        have hiL : i < L := by omega
        rw [chainDoc_step c L i hiL, convertDoc_cons_text,
          convertDoc_cons_embed_zero _ _ _ _
            (chainEnv_chainPath c L (i + 1) (by omega))]
        refine strContains_append_right _ (strContains_append_left _ ?_)
        exact strContains_append_left _
          (strContains_append_left _ (strContains_refl _))
  | succ d ih =>
      intro i hi
      by_cases hiL : i < L
      · have henv := chainEnv_chainPath c L (i + 1) (by omega)
        constructor
        · intro hle j hij hjL
          rw [chainDoc_step c L i hiL, convertDoc_cons_text,
            convertDoc_cons_embed_succ _ _ _ _ _ henv, convertDoc_nil]
          by_cases hji : j = i
          · subst hji
            exact strContains_append_left _ (strContains_refl _)
          · have hrec := ((ih (i + 1) (by omega)).1 (by omega)) j (by omega) hjL
            refine strContains_append_right _ (strContains_append_left _ ?_)
            refine strContains_append_right _ ?_
            refine strContains_append_right _ ?_
            exact strContains_append_left _ hrec
        · intro hlt
          rw [chainDoc_step c L i hiL, convertDoc_cons_text,
            convertDoc_cons_embed_succ _ _ _ _ _ henv, convertDoc_nil]
          have hrec := (ih (i + 1) (by omega)).2 (by omega)
          refine strContains_append_right _ (strContains_append_left _ ?_)
          refine strContains_append_right _ ?_
          refine strContains_append_right _ ?_
          exact strContains_append_left _ hrec
      · have hiL2 : i = L := by omega
        subst hiL2
        constructor
        · intro _ j hij hjL
          have hj : j = i := by omega
          subst hj
          rw [chainDoc_last, convertDoc_cons_text, convertDoc_nil]
          exact strContains_append_left _ (strContains_refl _)
        · intro hlt
          omega

/-- File A of the two-cycle: its content, then an embed of file B. -/
def cycleDocA (a b : String) : MdDoc :=
  [MdItem.text a, MdItem.embed "B"]

/-- File B of the two-cycle: its content, then an embed of file A. -/
def cycleDocB (a b : String) : MdDoc :=
  [MdItem.text b, MdItem.embed "A"]

/-- The environment of the cyclic embed graph A embeds B embeds A. -/
def cycleEnv (a b : String) : String → Option MdDoc :=
  fun p =>
    if p = "A" then some (cycleDocA a b)
    else if p = "B" then some (cycleDocB a b)
    else none

theorem cycleEnv_A (a b : String) : cycleEnv a b "A" = some (cycleDocA a b) := by
  simp [cycleEnv]

theorem cycleEnv_B (a b : String) : cycleEnv a b "B" = some (cycleDocB a b) := by
  simp [cycleEnv]

/-- On the cycle, conversion at any remaining depth terminates with a
depth-limited placeholder in the output (for both starting points). -/
theorem convertDoc_cycle (a b : String) :
    ∀ D, strContains (convertDoc (cycleEnv a b) D (cycleDocA a b)) depthLimitedTag ∧
      strContains (convertDoc (cycleEnv a b) D (cycleDocB a b)) depthLimitedTag := by
  intro D
  induction D with
  | zero =>
      constructor
      · unfold cycleDocA
        rw [convertDoc_cons_text,
          convertDoc_cons_embed_zero _ _ _ _ (cycleEnv_B a b), convertDoc_nil]
        refine strContains_append_right _ (strContains_append_left _ ?_)
        exact strContains_append_left _
          (strContains_append_left _ (strContains_refl _))
      · unfold cycleDocB
        rw [convertDoc_cons_text,
          convertDoc_cons_embed_zero _ _ _ _ (cycleEnv_A a b), convertDoc_nil]
        refine strContains_append_right _ (strContains_append_left _ ?_)
        exact strContains_append_left _
          (strContains_append_left _ (strContains_refl _))
  | succ D ihD =>
      constructor
      · unfold cycleDocA
        rw [convertDoc_cons_text,
          convertDoc_cons_embed_succ _ _ _ _ _ (cycleEnv_B a b), convertDoc_nil]
        refine strContains_append_right _ (strContains_append_left _ ?_)
        refine strContains_append_right _ ?_
        refine strContains_append_right _ ?_
        exact strContains_append_left _ ihD.2
      · unfold cycleDocB
        rw [convertDoc_cons_text,
          convertDoc_cons_embed_succ _ _ _ _ _ (cycleEnv_A a b), convertDoc_nil]
        refine strContains_append_right _ (strContains_append_left _ ?_)
        refine strContains_append_right _ ?_
        refine strContains_append_right _ ?_
        exact strContains_append_left _ ihD.1

/-! ### C1 -/

/-- C1 (spec-modelled engine): conversion is total for every depth budget
and every environment — `convertDoc` is structurally recursive on the
remaining depth, the spec's sole termination mechanism — and along a chain
of embedded files of length `L` with budget `D`: when `L ≤ D` every
intermediate document's content appears in the final output (the embedded
ones inside a quote block), and when `L > D` the output carries the
depth-limited placeholder at the truncation point; on the cyclic graph
A embeds B embeds A, conversion also terminates for every budget and the
output carries the depth-limited placeholder. -/
theorem embed_chains_depth_bounded (c : Nat → String) (L D : Nat)
    (a b : String) :
    (L ≤ D → ∀ j, j ≤ L →
      strContains (convertDoc (chainEnv c L) D (chainDoc c L 0)) (c j)) ∧
    (1 ≤ L → 1 ≤ D →
      strContains (convertDoc (chainEnv c L) D (chainDoc c L 0)) "#quote[") ∧
    (D < L →
      strContains (convertDoc (chainEnv c L) D (chainDoc c L 0)) depthLimitedTag) ∧
    strContains (convertDoc (cycleEnv a b) D (cycleDocA a b)) depthLimitedTag := by
  refine ⟨?_, ?_, ?_, (convertDoc_cycle a b D).1⟩
  · intro hLD j hjL
    exact (convertDoc_chain c L D 0 (Nat.zero_le L)).1 (by omega) j (Nat.zero_le j) hjL
  · intro hL hD
    obtain ⟨d, rfl⟩ : ∃ d, D = d + 1 := ⟨D - 1, by omega⟩
    rw [chainDoc_step c L 0 (by omega), convertDoc_cons_text,
      convertDoc_cons_embed_succ _ _ _ _ _ (chainEnv_chainPath c L 1 (by omega)),
      convertDoc_nil]
    refine strContains_append_right _ (strContains_append_left _ ?_)
    refine strContains_append_right _ ?_
    exact strContains_append_left _ (strContains_refl _)
  · intro hDL
    exact (convertDoc_chain c L D 0 (Nat.zero_le L)).2 (by omega)

theorem embed_chains_depth_bounded_witness :
    strContains
      (convertDoc (chainEnv (fun i => String.mk (List.replicate (i + 1) 'c')) 2) 5
        (chainDoc (fun i => String.mk (List.replicate (i + 1) 'c')) 2 0))
      (String.mk (List.replicate 3 'c')) ∧
    strContains
      (convertDoc (chainEnv (fun i => String.mk (List.replicate (i + 1) 'c')) 3) 1
        (chainDoc (fun i => String.mk (List.replicate (i + 1) 'c')) 3 0))
      depthLimitedTag ∧
    strContains (convertDoc (cycleEnv "aaa" "bbb") 4 (cycleDocA "aaa" "bbb"))
      depthLimitedTag :=
  ⟨(embed_chains_depth_bounded (fun i => String.mk (List.replicate (i + 1) 'c'))
      2 5 "x" "y").1 (by decide) 2 (by decide),
   (embed_chains_depth_bounded (fun i => String.mk (List.replicate (i + 1) 'c'))
      3 1 "x" "y").2.2.1 (by decide),
   (embed_chains_depth_bounded (fun i => String.mk (List.replicate (i + 1) 'c'))
      0 4 "aaa" "bbb").2.2.2⟩
